import Mathlib

/-!
Verification development for the PostgreSQL search-index benchmark service.

The Go source is shallowly embedded: pure functions become Lean functions,
the process-wide random generator becomes an explicit oracle (`RandSrc`)
threaded through a state monad counting random draws, the storage layer
becomes an explicit list of rows, and external library calls
(`json.Unmarshal`, Postgres full-text matching) become function parameters.
-/

namespace LogBench

/-- Structured JSON-like document values, mirroring the dynamic
`map[string]interface{}` values stored in the `content` column:
strings, integers, booleans, nested objects and arrays. -/
inductive JValue where
  | str (s : String)
  | int (n : Int)
  | bool (b : Bool)
  | obj (fields : List (String × JValue))
  | arr (elems : List JValue)

/-- Embedding of `models.Content` (`map[string]interface{}`) as an
association list from keys to values. -/
abbrev Content := List (String × JValue)

/-- Go map assignment `content[k] = v`: replace the value at an existing key,
otherwise add the key. -/
def insertKV : Content → String → JValue → Content
  | [], k, v => [(k, v)]
  | (k', v') :: rest, k, v =>
    if k' = k then (k, v) :: rest else (k', v') :: insertKV rest k v

/-- The field-name set (as a list of keys) of a content document. -/
def fieldNames (c : Content) : List String := c.map Prod.fst

/-- Effect of a Go map assignment on the key list. -/
def insertKey (ks : List String) (k : String) : List String :=
  if k ∈ ks then ks else ks ++ [k]

theorem fieldNames_insertKV (c : Content) (k : String) (v : JValue) :
    fieldNames (insertKV c k v) = insertKey (fieldNames c) k := by
  induction c with
  | nil => simp [insertKV, insertKey, fieldNames]
  | cons hd tl ih =>
    obtain ⟨k', v'⟩ := hd
    by_cases hk : k' = k
    · subst hk
      simp [insertKV, insertKey, fieldNames]
    · have hfn : fieldNames (insertKV ((k', v') :: tl) k v)
          = k' :: fieldNames (insertKV tl k v) := by
        simp [insertKV, if_neg hk, fieldNames]
      rw [hfn, ih]
      by_cases hmem : k ∈ fieldNames tl
      · have h2 : k ∈ fieldNames ((k', v') :: tl) := by
          simp only [fieldNames, List.map_cons, List.mem_cons]
          exact Or.inr hmem
        have hmem' : k ∈ List.map Prod.fst tl := hmem
        have h2' : k ∈ k' :: List.map Prod.fst tl := h2
        simp [insertKey, hmem', h2', fieldNames]
      · have hne : k ∉ fieldNames ((k', v') :: tl) := by
          simp only [fieldNames, List.map_cons, List.mem_cons]
          intro hcon
          rcases hcon with hcon | hcon
          · exact hk hcon.symm
          · exact hmem hcon
        have hmem' : k ∉ List.map Prod.fst tl := hmem
        have hne' : k ∉ k' :: List.map Prod.fst tl := hne
        simp only [insertKey, if_neg hmem', if_neg hne', fieldNames, List.map_cons,
          List.cons_append]

theorem mem_insertKey (ks : List String) (k a : String) (h : a ∈ ks) :
    a ∈ insertKey ks k := by
  unfold insertKey
  split
  · exact h
  · exact List.mem_append_left _ h

/-- Go `for k, v := range adds { content[k] = v }` over an association list. -/
def mergeContent (c adds : Content) : Content :=
  adds.foldl (fun acc kv => insertKV acc kv.1 kv.2) c

theorem fieldNames_mergeContent (c adds : Content) :
    fieldNames (mergeContent c adds) =
      (fieldNames adds).foldl insertKey (fieldNames c) := by
  induction adds generalizing c with
  | nil => rfl
  | cons hd tl ih =>
    have hstep : mergeContent c (hd :: tl) = mergeContent (insertKV c hd.1 hd.2) tl := rfl
    rw [hstep, ih, fieldNames_insertKV]
    rfl

theorem mem_foldl_insertKey (l : List String) (ks : List String) (a : String)
    (h : a ∈ ks) : a ∈ l.foldl insertKey ks := by
  induction l generalizing ks with
  | nil => exact h
  | cons hd tl ih => exact ih _ (mem_insertKey ks hd a h)

/-- Oracle for the process-wide randomness and time/format library calls
consumed by the content generator. `intnAt i n` is the value produced by the
`i`-th random draw when called as `rand.Intn n` (reduced mod `n` so it lies
in `[0, n)`), `uuidAt i` the `i`-th generated UUID string, `nowUnix` the
current time, `addMonths`/`fmtYMD`/`fmtRFC3339` the Go time library's
calendar arithmetic and formatting. -/
structure RandSrc where
  intnAt : Nat → Nat → Nat
  uuidAt : Nat → String
  nowUnix : Int
  addMonths : Int → Nat → Int
  fmtYMD : Int → String
  fmtRFC3339 : Int → String

/-- Generation monad: state is the index of the next random draw. -/
abbrev GenM := StateM Nat

/-- One `rand.Intn n` call. -/
def rIntn (src : RandSrc) (n : Nat) : GenM Nat :=
  fun k => (src.intnAt k n % n, k + 1)

/-- One `uuid.New().String()` call. -/
def rUuid (src : RandSrc) : GenM String :=
  fun k => (src.uuidAt k, k + 1)

def getRandomUserAgent (src : RandSrc) : GenM String := do
  let userAgents := [
    "Mozilla/5.0 (Windows NT 10.0; Win64; x64) AppleWebKit/537.36",
    "Mozilla/5.0 (Macintosh; Intel Mac OS X 10_15_7) AppleWebKit/537.36",
    "Mozilla/5.0 (X11; Linux x86_64) AppleWebKit/537.36",
    "Mozilla/5.0 (iPhone; CPU iPhone OS 14_7_1 like Mac OS X)",
    "Mozilla/5.0 (Android 11; Mobile; rv:68.0) Gecko/68.0 Firefox/88.0"]
  let i ← rIntn src userAgents.length
  pure (userAgents.getD i (""))

def getRandomAction (src : RandSrc) : GenM String := do
  let actions := [
    "login", "logout", "view", "click", "purchase", "search", "filter",
    "create", "update", "delete", "download", "upload", "share", "comment",
    "like", "dislike", "subscribe", "unsubscribe", "follow", "unfollow"]
  let i ← rIntn src actions.length
  pure (actions.getD i (""))

def getRandomStatus (src : RandSrc) : GenM String := do
  let statuses := [
    "success", "failure", "pending", "timeout", "error", "warning", "info"]
  let i ← rIntn src statuses.length
  pure (statuses.getD i (""))

def getRandomProtocol (src : RandSrc) : GenM String := do
  let protocols := ["HTTP", "HTTPS", "WebSocket", "gRPC", "TCP", "UDP"]
  let i ← rIntn src protocols.length
  pure (protocols.getD i (""))

def getRandomErrorCode (src : RandSrc) : GenM String := do
  let codes := ["200", "201", "400", "401", "403", "404", "500", "502", "503", "504"]
  let i ← rIntn src codes.length
  pure (codes.getD i (""))

def getRandomRegion (src : RandSrc) : GenM String := do
  let regions := ["us-east-1", "us-west-2", "eu-west-1", "ap-southeast-1", "ap-northeast-1"]
  let i ← rIntn src regions.length
  pure (regions.getD i (""))

def getRandomEnvironment (src : RandSrc) : GenM String := do
  let envs := ["production", "staging", "development", "testing"]
  let i ← rIntn src envs.length
  pure (envs.getD i (""))

def getRandomFeatureFlag (src : RandSrc) : GenM String := do
  let flags := ["new_ui", "beta_search", "advanced_analytics", "real_time_sync", "auto_backup"]
  let i ← rIntn src flags.length
  pure (flags.getD i (""))

def getRandomSegment (src : RandSrc) : GenM String := do
  let segments := ["premium", "basic", "trial", "enterprise", "free"]
  let i ← rIntn src segments.length
  pure (segments.getD i (""))

def getRandomTier (src : RandSrc) : GenM String := do
  let tiers := ["bronze", "silver", "gold", "platinum", "diamond"]
  let i ← rIntn src tiers.length
  pure (tiers.getD i (""))

def getRandomPlan (src : RandSrc) : GenM String := do
  let plans := ["starter", "professional", "business", "enterprise", "custom"]
  let i ← rIntn src plans.length
  pure (plans.getD i (""))

def getRandomCountry (src : RandSrc) : GenM String := do
  let countries := ["US", "UK", "CA", "AU", "DE", "FR", "JP", "SG", "IN", "BR"]
  let i ← rIntn src countries.length
  pure (countries.getD i (""))

def getRandomCity (src : RandSrc) : GenM String := do
  let cities := ["New York", "London", "Toronto", "Sydney", "Berlin", "Paris",
    "Tokyo", "Singapore", "Mumbai", "São Paulo"]
  let i ← rIntn src cities.length
  pure (cities.getD i (""))

def getRandomTimezone (src : RandSrc) : GenM String := do
  let timezones := ["UTC", "America/New_York", "Europe/London", "Asia/Tokyo", "Australia/Sydney"]
  let i ← rIntn src timezones.length
  pure (timezones.getD i (""))

def getRandomLanguage (src : RandSrc) : GenM String := do
  let languages := ["en", "es", "fr", "de", "ja", "zh", "pt", "ru", "ar", "hi"]
  let i ← rIntn src languages.length
  pure (languages.getD i (""))

def getRandomCurrency (src : RandSrc) : GenM String := do
  let currencies := ["USD", "EUR", "GBP", "JPY", "CAD", "AUD", "CHF", "CNY", "INR", "BRL"]
  let i ← rIntn src currencies.length
  pure (currencies.getD i (""))

/-- One character of `generateJapaneseString`: a random hiragana, katakana
or kanji code point. -/
def japaneseChar (src : RandSrc) : GenM Char := do
  let t ← rIntn src 3
  if t = 0 then
    let o ← rIntn src (0x309F - 0x3040 + 1)
    pure (Char.ofNat (0x3040 + o))
  else if t = 1 then
    let o ← rIntn src (0x30FF - 0x30A0 + 1)
    pure (Char.ofNat (0x30A0 + o))
  else
    let o ← rIntn src 0x1000
    pure (Char.ofNat (0x4E00 + o))

def generateJapaneseChars (src : RandSrc) : Nat → GenM (List Char)
  | 0 => pure []
  | n + 1 => do
    let c ← japaneseChar src
    let rest ← generateJapaneseChars src n
    pure (c :: rest)

def generateJapaneseString (src : RandSrc) (length : Nat) : GenM String := do
  let cs ← generateJapaneseChars src length
  pure (String.mk cs)

/-- Embedding of `generateSmallContent`: the fixed 9-field document. -/
def generateSmallContent (src : RandSrc) : GenM Content := do
  let eventId ← rUuid src
  let sess ← rIntn src 100000
  let ip1 ← rIntn src 255
  let ip2 ← rIntn src 255
  let ua ← getRandomUserAgent src
  let act ← getRandomAction src
  let st ← getRandomStatus src
  let dur ← rIntn src 5000
  let dev ← rIntn src 10000
  pure [
    ("event_id", JValue.str eventId),
    ("session_id", JValue.str ("sess_" ++ toString sess)),
    ("ip_address", JValue.str ("192.168." ++ toString ip1 ++ "." ++ toString ip2)),
    ("user_agent", JValue.str ua),
    ("timestamp", JValue.int src.nowUnix),
    ("action_type", JValue.str act),
    ("status", JValue.str st),
    ("duration", JValue.int (Int.ofNat (dur + 100))),
    ("device_id", JValue.str ("device_" ++ toString dev))]

/-- Embedding of the `additionalFields` map literal of `generateMediumContent`. -/
def mediumAdditionalFields (src : RandSrc) : GenM Content := do
  let reqId ← rUuid src
  let corr ← rIntn src 1000000
  let sip1 ← rIntn src 255
  let sip2 ← rIntn src 255
  let dip1 ← rIntn src 255
  let dip2 ← rIntn src 255
  let proto ← getRandomProtocol src
  let port ← rIntn src 65535
  let bs ← rIntn src 1000000
  let br ← rIntn src 1000000
  let lat ← rIntn src 1000
  let ec ← getRandomErrorCode src
  let rc ← rIntn src 5
  let ch ← rIntn src 2
  let comp ← rIntn src 2
  let enc ← rIntn src 2
  let reg ← getRandomRegion src
  let dc ← rIntn src 10
  let sv1 ← rIntn src 5
  let sv2 ← rIntn src 10
  let sv3 ← rIntn src 20
  let bn ← rIntn src 10000
  let env ← getRandomEnvironment src
  let tenant ← rUuid src
  let org ← rIntn src 1000
  let team ← rIntn src 100
  let proj ← rIntn src 50
  let ff ← getRandomFeatureFlag src
  let ab ← rIntn src 100
  let expId ← rUuid src
  let seg ← getRandomSegment src
  let coh ← rIntn src 10
  let tier ← getRandomTier src
  let plan ← getRandomPlan src
  let quota ← rIntn src 10000
  let usage ← rIntn src 1000
  let lim ← rIntn src 5000
  let rem ← rIntn src 1000
  let renMonths ← rIntn src 12
  let llSecs ← rIntn src 86400
  let flSecs ← rIntn src (86400 * 30)
  let sc ← rIntn src 100
  let ts ← rIntn src 1000
  let country ← getRandomCountry src
  let city ← getRandomCity src
  let tz ← getRandomTimezone src
  let lang ← getRandomLanguage src
  let cur ← getRandomCurrency src
  let descLen ← rIntn src 100
  let desc ← generateJapaneseString src (descLen + 20)
  let notesLen ← rIntn src 50
  let notes ← generateJapaneseString src (notesLen + 10)
  pure [
    ("request_id", JValue.str reqId),
    ("correlation_id", JValue.str ("corr_" ++ toString corr)),
    ("source_ip", JValue.str ("10.0." ++ toString sip1 ++ "." ++ toString sip2)),
    ("destination_ip", JValue.str ("172.16." ++ toString dip1 ++ "." ++ toString dip2)),
    ("protocol", JValue.str proto),
    ("port", JValue.int (Int.ofNat port)),
    ("bytes_sent", JValue.int (Int.ofNat bs)),
    ("bytes_received", JValue.int (Int.ofNat br)),
    ("latency", JValue.int (Int.ofNat lat)),
    ("error_code", JValue.str ec),
    ("retry_count", JValue.int (Int.ofNat rc)),
    ("cache_hit", JValue.bool (ch = 1)),
    ("compression", JValue.bool (comp = 1)),
    ("encrypted", JValue.bool (enc = 1)),
    ("region", JValue.str reg),
    ("datacenter", JValue.str ("dc-" ++ toString (dc + 1))),
    ("service_version", JValue.str ("v" ++ toString (sv1 + 1) ++ "." ++ toString sv2 ++ "." ++ toString sv3)),
    ("build_number", JValue.int (Int.ofNat bn)),
    ("environment", JValue.str env),
    ("tenant_id", JValue.str tenant),
    ("org_id", JValue.str ("org_" ++ toString org)),
    ("team_id", JValue.str ("team_" ++ toString team)),
    ("project_id", JValue.str ("proj_" ++ toString proj)),
    ("feature_flag", JValue.str ff),
    ("ab_test", JValue.str ("test_" ++ toString ab)),
    ("experiment_id", JValue.str expId),
    ("segment", JValue.str seg),
    ("cohort", JValue.str ("cohort_" ++ toString (coh + 1))),
    ("tier", JValue.str tier),
    ("plan", JValue.str plan),
    ("quota", JValue.int (Int.ofNat quota)),
    ("usage", JValue.int (Int.ofNat usage)),
    ("limit", JValue.int (Int.ofNat lim)),
    ("remaining", JValue.int (Int.ofNat rem)),
    ("renewal_date", JValue.str (src.fmtYMD (src.addMonths src.nowUnix renMonths))),
    ("last_login", JValue.str (src.fmtRFC3339 (src.nowUnix - Int.ofNat llSecs))),
    ("first_login", JValue.str (src.fmtRFC3339 (src.nowUnix - Int.ofNat flSecs))),
    ("session_count", JValue.int (Int.ofNat sc)),
    ("total_sessions", JValue.int (Int.ofNat ts)),
    ("country", JValue.str country),
    ("city", JValue.str city),
    ("timezone", JValue.str tz),
    ("language", JValue.str lang),
    ("currency", JValue.str cur),
    ("description", JValue.str desc),
    ("notes", JValue.str notes)]

/-- Embedding of `generateMediumContent`: the small document with the
additional fields merged in by Go map assignment. -/
def generateMediumContent (src : RandSrc) : GenM Content := do
  let content ← generateSmallContent src
  let adds ← mediumAdditionalFields src
  pure (mergeContent content adds)

/-- A Go `for i := 0; i < n; i++ { content[key i] = ... }` loop: the key of
each iteration is a pure function of the index, the value consumes
randomness. -/
def addFieldLoop (key : Nat → String) (mkVal : Nat → GenM JValue) :
    List Nat → Content → GenM Content
  | [], c => pure c
  | i :: rest, c => do
    let v ← mkVal i
    addFieldLoop key mkVal rest (insertKV c (key i) v)

/-- Value of one `field_%d` entry of `generateLargeContent`. -/
def largeFlatValue (src : RandSrc) (_i : Nat) : GenM JValue := do
  let n ← rIntn src 100000
  let j ← generateJapaneseString src 5
  pure (JValue.str ("value_" ++ toString n ++ "_" ++ j))

/-- Value of one `japanese_field_%d` entry of `generateLargeContent`. -/
def largeJapaneseValue (src : RandSrc) (_i : Nat) : GenM JValue := do
  let len ← rIntn src 100
  let j ← generateJapaneseString src (len + 20)
  pure (JValue.str j)

/-- Value of one `nested_field_%d` sub-entry of a nested object. -/
def nestedFieldValue (src : RandSrc) (_j : Nat) : GenM JValue := do
  let n ← rIntn src 1000
  let j ← generateJapaneseString src 5
  pure (JValue.str ("nested_value_" ++ toString n ++ "_" ++ j))

/-- Value of one `nested_obj_%d` entry: a fresh 10-field nested object. -/
def largeNestedValue (src : RandSrc) (_i : Nat) : GenM JValue := do
  let nested ← addFieldLoop (fun j => "nested_field_" ++ toString j)
    (nestedFieldValue src) (List.range 10) []
  pure (JValue.obj nested)

def arrayItems (src : RandSrc) (i : Nat) : List Nat → GenM (List JValue)
  | [] => pure []
  | j :: rest => do
    let jap ← generateJapaneseString src 5
    let tail ← arrayItems src i rest
    pure (JValue.str ("array_item_" ++ toString i ++ "_" ++ toString j ++ "_" ++ jap) :: tail)

/-- Value of one `array_field_%d` entry: 1-20 random string elements. -/
def largeArrayValue (src : RandSrc) (i : Nat) : GenM JValue := do
  let len ← rIntn src 20
  let elems ← arrayItems src i (List.range (len + 1))
  pure (JValue.arr elems)

/-- Embedding of `generateLargeContent`: the medium document plus 500 flat
fields, 200 Japanese text fields, 100 nested objects and 50 array fields. -/
def generateLargeContent (src : RandSrc) : GenM Content := do
  let c0 ← generateMediumContent src
  let c1 ← addFieldLoop (fun i => "field_" ++ toString i)
    (largeFlatValue src) (List.range 500) c0
  let c2 ← addFieldLoop (fun i => "japanese_field_" ++ toString i)
    (largeJapaneseValue src) (List.range 200) c1
  let c3 ← addFieldLoop (fun i => "nested_obj_" ++ toString i)
    (largeNestedValue src) (List.range 100) c2
  let c4 ← addFieldLoop (fun i => "array_field_" ++ toString i)
    (largeArrayValue src) (List.range 50) c3
  pure c4

/-- Embedding of `GenerateSampleContent`: dispatch on the size-class string,
with the default branch producing a small document. -/
def GenerateSampleContent (size : String) (src : RandSrc) : GenM Content :=
  match size with
  | "small" => generateSmallContent src
  | "medium" => generateMediumContent src
  | "large" => generateLargeContent src
  | _ => generateSmallContent src

theorem run_bind {α β : Type} (a : GenM α) (f : α → GenM β) (k : Nat) :
    (a >>= f).run k = (f (a.run k).1).run (a.run k).2 := rfl

theorem run_pure {α : Type} (x : α) (k : Nat) : (pure x : GenM α).run k = (x, k) := rfl

/-- The 9 field names of a small document. -/
def smallKeys : List String :=
  ["event_id", "session_id", "ip_address", "user_agent", "timestamp",
   "action_type", "status", "duration", "device_id"]

/-- The field names of the `additionalFields` literal of the medium generator. -/
def mediumAddKeys : List String :=
  ["request_id", "correlation_id", "source_ip", "destination_ip", "protocol",
   "port", "bytes_sent", "bytes_received", "latency", "error_code",
   "retry_count", "cache_hit", "compression", "encrypted", "region",
   "datacenter", "service_version", "build_number", "environment", "tenant_id",
   "org_id", "team_id", "project_id", "feature_flag", "ab_test",
   "experiment_id", "segment", "cohort", "tier", "plan",
   "quota", "usage", "limit", "remaining", "renewal_date",
   "last_login", "first_login", "session_count", "total_sessions", "country",
   "city", "timezone", "language", "currency", "description", "notes"]

/-- Field names of a medium document: the small keys with the additional keys
merged in. -/
def mediumKeys : List String := mediumAddKeys.foldl insertKey smallKeys

/-- Field names of a large document: the medium keys with the four
loop-generated key families merged in. -/
def largeKeys : List String :=
  ((List.range 50).map (fun i => "array_field_" ++ toString i)).foldl insertKey
    (((List.range 100).map (fun i => "nested_obj_" ++ toString i)).foldl insertKey
      (((List.range 200).map (fun i => "japanese_field_" ++ toString i)).foldl insertKey
        (((List.range 500).map (fun i => "field_" ++ toString i)).foldl insertKey mediumKeys)))

theorem fieldNames_small (src : RandSrc) (k : Nat) :
    fieldNames ((generateSmallContent src).run k).1 = smallKeys := rfl

theorem fieldNames_mediumAdds (src : RandSrc) (k : Nat) :
    fieldNames ((mediumAdditionalFields src).run k).1 = mediumAddKeys := by
  simp only [mediumAdditionalFields, run_bind, run_pure, fieldNames, List.map_cons,
    List.map_nil]
  rfl

theorem fieldNames_medium (src : RandSrc) (k : Nat) :
    fieldNames ((generateMediumContent src).run k).1 = mediumKeys := by
  simp only [generateMediumContent, run_bind, run_pure]
  rw [fieldNames_mergeContent, fieldNames_small, fieldNames_mediumAdds]
  rfl

theorem fieldNames_addFieldLoop (key : Nat → String) (mkVal : Nat → GenM JValue)
    (is : List Nat) (c : Content) (k : Nat) :
    fieldNames ((addFieldLoop key mkVal is c).run k).1
      = (is.map key).foldl insertKey (fieldNames c) := by
  induction is generalizing c k with
  | nil => rfl
  | cons i rest ih =>
    have hstep : (addFieldLoop key mkVal (i :: rest) c).run k
        = (addFieldLoop key mkVal rest (insertKV c (key i) ((mkVal i).run k).1)).run
            ((mkVal i).run k).2 := rfl
    have hgoal : fieldNames ((addFieldLoop key mkVal (i :: rest) c).run k).1
        = (rest.map key).foldl insertKey (fieldNames (insertKV c (key i) ((mkVal i).run k).1)) := by
      rw [hstep, ih]
    rw [hgoal, fieldNames_insertKV]
    rfl

theorem run_bind_eq {α β : Type} (a : GenM α) (f : α → GenM β) (k : Nat) (x : α × Nat)
    (h : a.run k = x) : (a >>= f).run k = (f x.1).run x.2 := by
  subst h
  rfl

theorem fieldNames_large (src : RandSrc) (k : Nat) :
    fieldNames ((generateLargeContent src).run k).1 = largeKeys := by
  rcases hM : (generateMediumContent src).run k with ⟨c0, k0⟩
  rcases h1 : (addFieldLoop (fun i => "field_" ++ toString i) (largeFlatValue src)
      (List.range 500) c0).run k0 with ⟨c1, k1⟩
  rcases h2 : (addFieldLoop (fun i => "japanese_field_" ++ toString i) (largeJapaneseValue src)
      (List.range 200) c1).run k1 with ⟨c2, k2⟩
  rcases h3 : (addFieldLoop (fun i => "nested_obj_" ++ toString i) (largeNestedValue src)
      (List.range 100) c2).run k2 with ⟨c3, k3⟩
  rcases h4 : (addFieldLoop (fun i => "array_field_" ++ toString i) (largeArrayValue src)
      (List.range 50) c3).run k3 with ⟨c4, k4⟩
  have hrun : (generateLargeContent src).run k = (c4, k4) := by
    simp only [generateLargeContent]
    rw [run_bind_eq _ _ _ _ hM]
    dsimp only
    rw [run_bind_eq _ _ _ _ h1]
    dsimp only
    rw [run_bind_eq _ _ _ _ h2]
    dsimp only
    rw [run_bind_eq _ _ _ _ h3]
    dsimp only
    rw [run_bind_eq _ _ _ _ h4]
    dsimp only
    rfl
  rw [hrun]
  have n0 := fieldNames_medium src k
  rw [hM] at n0
  have n1 := fieldNames_addFieldLoop (fun i => "field_" ++ toString i) (largeFlatValue src)
    (List.range 500) c0 k0
  rw [h1] at n1
  have n2 := fieldNames_addFieldLoop (fun i => "japanese_field_" ++ toString i)
    (largeJapaneseValue src) (List.range 200) c1 k1
  rw [h2] at n2
  have n3 := fieldNames_addFieldLoop (fun i => "nested_obj_" ++ toString i)
    (largeNestedValue src) (List.range 100) c2 k2
  rw [h3] at n3
  have n4 := fieldNames_addFieldLoop (fun i => "array_field_" ++ toString i)
    (largeArrayValue src) (List.range 50) c3 k3
  rw [h4] at n4
  show fieldNames c4 = largeKeys
  rw [n4, n3, n2, n1, n0]
  rfl

theorem smallKeys_subset_mediumKeys : smallKeys ⊆ mediumKeys := by
  intro a ha
  exact mem_foldl_insertKey _ _ _ ha

theorem mediumKeys_subset_largeKeys : mediumKeys ⊆ largeKeys := by
  intro a ha
  exact mem_foldl_insertKey _ _ _ (mem_foldl_insertKey _ _ _
    (mem_foldl_insertKey _ _ _ (mem_foldl_insertKey _ _ _ ha)))

/-- C1: for any randomness, the field-name set of the generated content
document is monotone in the size-class ordering: every field name of
`generate(small)` occurs in `generate(medium)`, and every field name of
`generate(medium)` occurs in `generate(large)` (superset by field names,
not by values). -/
theorem generated_field_sets_monotone (src₁ src₂ src₃ : RandSrc) (k₁ k₂ k₃ : Nat) :
    fieldNames ((GenerateSampleContent ("small") src₁).run k₁).1 ⊆
      fieldNames ((GenerateSampleContent ("medium") src₂).run k₂).1 ∧
    fieldNames ((GenerateSampleContent ("medium") src₂).run k₂).1 ⊆
      fieldNames ((GenerateSampleContent ("large") src₃).run k₃).1 := by
  have hs : GenerateSampleContent ("small") src₁ = generateSmallContent src₁ := rfl
  have hm₂ : GenerateSampleContent ("medium") src₂ = generateMediumContent src₂ := rfl
  have hl : GenerateSampleContent ("large") src₃ = generateLargeContent src₃ := rfl
  rw [hs, hm₂, hl, fieldNames_small, fieldNames_medium, fieldNames_large]
  exact ⟨smallKeys_subset_mediumKeys, mediumKeys_subset_largeKeys⟩

/-- C10: a size-class string outside the three known classes does not make
the generator fail; the default branch produces a document with exactly the
small class's field-name set. -/
theorem generate_default_is_small (size : String)
    (h : size ∉ (["small", "medium", "large"] : List String))
    (src src' : RandSrc) (k k' : Nat) :
    fieldNames ((GenerateSampleContent size src).run k).1
      = fieldNames ((GenerateSampleContent ("small") src').run k').1 := by
  have h1 : size ≠ "small" := fun hc => h (by rw [hc]; exact List.mem_cons_self _ _)
  have h2 : size ≠ "medium" := fun hc => h (by rw [hc]; simp)
  have h3 : size ≠ "large" := fun hc => h (by rw [hc]; simp)
  have hdef : GenerateSampleContent size src = generateSmallContent src := by
    unfold GenerateSampleContent
    split
    · exact absurd rfl h1
    · exact absurd rfl h2
    · exact absurd rfl h3
    · rfl
  have hs : GenerateSampleContent ("small") src' = generateSmallContent src' := rfl
  rw [hdef, hs, fieldNames_small, fieldNames_small]

/-- Witness for C10 at the concrete out-of-enum size class `tiny`. -/
theorem generate_default_is_small_witness :
    (("tiny" : String) ∉ (["small", "medium", "large"] : List String)) ∧
    fieldNames ((GenerateSampleContent ("tiny")
        (RandSrc.mk (fun _ _ => 0) (fun _ => "") 0 (fun t _ => t) (fun _ => "") (fun _ => ""))).run 0).1
      = fieldNames ((GenerateSampleContent ("small")
        (RandSrc.mk (fun _ _ => 0) (fun _ => "") 0 (fun t _ => t) (fun _ => "") (fun _ => ""))).run 0).1 :=
  ⟨by decide, generate_default_is_small ("tiny") (by decide) _ _ 0 0⟩

/-- Fixed batch size of the bulk loader (`batchSize := 1000` in
`InitializeData`). -/
def batchSize : Nat := 1000

/-- `totalBatches := (req.RecordCount + batchSize - 1) / batchSize`. -/
def totalBatches (recordCount : Nat) : Nat := (recordCount + batchSize - 1) / batchSize

/-- Size of batch number `batch` (0-based): the full batch size except for
the final batch, which gets the remaining records
(`req.RecordCount - batch*batchSize`). -/
def currentBatchSize (recordCount batch : Nat) : Nat :=
  if batch = totalBatches recordCount - 1 then recordCount - batch * batchSize
  else batchSize

/-- The sequence of batch sizes submitted by the loader loop. -/
def batchSizes (recordCount : Nat) : List Nat :=
  (List.range (totalBatches recordCount)).map (currentBatchSize recordCount)

theorem sum_map_const_range (m c : Nat) : ((List.range m).map (fun _ => c)).sum = m * c := by
  induction m with
  | zero => simp
  | succ p ih =>
    rw [List.range_succ, List.map_append, List.sum_append, ih]
    simp [Nat.succ_mul]

theorem batchSizes_sum (n : Nat) (hn : 1 ≤ n) : (batchSizes n).sum = n := by
  have htb : 1 ≤ totalBatches n := by
    unfold totalBatches batchSize
    omega
  obtain ⟨m, hm⟩ : ∃ m, totalBatches n = m + 1 := ⟨totalBatches n - 1, by omega⟩
  have hrange : List.range (totalBatches n) = List.range m ++ [m] := by
    rw [hm]
    exact List.range_succ m
  have hconst : (List.range m).map (currentBatchSize n) = (List.range m).map (fun _ => batchSize) := by
    apply List.map_congr_left
    intro i hi
    have him : i < m := List.mem_range.mp hi
    unfold currentBatchSize
    rw [if_neg (by omega)]
  have hsum1 : ((List.range m).map (currentBatchSize n)).sum = m * batchSize := by
    rw [hconst, sum_map_const_range]
  have hlast : currentBatchSize n m = n - m * batchSize := by
    unfold currentBatchSize
    rw [if_pos (by omega)]
  have hbound : m * batchSize < n := by
    have : m < totalBatches n := by omega
    unfold totalBatches batchSize at *
    omega
  unfold batchSizes
  rw [hrange, List.map_append, List.sum_append, hsum1]
  simp only [List.map_cons, List.map_nil, List.sum_cons, List.sum_nil, hlast]
  omega

/-- C2: for every `totalCount ≥ 1` the loader partitions the load into
exactly `ceil(totalCount/1000)` batches whose sizes sum to `totalCount`;
every batch except the last has size 1000, and the last batch has size
`totalCount mod 1000`, or 1000 when 1000 divides `totalCount`. -/
theorem loader_batching_correct (n : Nat) (hn : 1 ≤ n) :
    (batchSizes n).length = (n + 1000 - 1) / 1000 ∧
    (batchSizes n).sum = n ∧
    (∀ i, i + 1 < (batchSizes n).length → (batchSizes n).getD i 0 = 1000) ∧
    (batchSizes n).getD ((batchSizes n).length - 1) 0
      = (if n % 1000 = 0 then 1000 else n % 1000) := by
  refine ⟨?_, batchSizes_sum n hn, ?_, ?_⟩
  · simp [batchSizes, totalBatches, batchSize]
  · intro i hi
    have hlen : (batchSizes n).length = totalBatches n := by simp [batchSizes]
    have hii : i < totalBatches n := by omega
    have : (batchSizes n).getD i 0 = currentBatchSize n i := by
      unfold batchSizes
      rw [List.getD_eq_getElem?_getD, List.getElem?_map, List.getElem?_range hii]
      rfl
    rw [this]
    unfold currentBatchSize
    rw [if_neg (by omega)]
    rfl
  · have hlen : (batchSizes n).length = totalBatches n := by simp [batchSizes]
    have htb : 1 ≤ totalBatches n := by
      unfold totalBatches batchSize
      omega
    have hlt : totalBatches n - 1 < totalBatches n := by omega
    have : (batchSizes n).getD ((batchSizes n).length - 1) 0
        = currentBatchSize n (totalBatches n - 1) := by
      unfold batchSizes
      rw [List.length_map, List.length_range, List.getD_eq_getElem?_getD,
        List.getElem?_map, List.getElem?_range hlt]
      rfl
    rw [this]
    unfold currentBatchSize
    rw [if_pos rfl]
    clear this
    unfold totalBatches batchSize
    by_cases hmod : n % 1000 = 0
    · rw [if_pos hmod]
      omega
    · rw [if_neg hmod]
      omega

/-- Witness for C2 at `totalCount = 2500`. -/
theorem loader_batching_correct_witness :
    (1 ≤ 2500) ∧
    ((batchSizes 2500).length = (2500 + 1000 - 1) / 1000 ∧
     (batchSizes 2500).sum = 2500 ∧
     (∀ i, i + 1 < (batchSizes 2500).length → (batchSizes 2500).getD i 0 = 1000) ∧
     (batchSizes 2500).getD ((batchSizes 2500).length - 1) 0
       = (if 2500 % 1000 = 0 then 1000 else 2500 % 1000)) :=
  ⟨by decide, loader_batching_correct 2500 (by decide)⟩

/-- Observable state of a bulk load in progress: which batch indices were
submitted to storage, which committed successfully, and how many rows
storage accepted (`totalInserted`). -/
structure LoadState where
  attempted : List Nat
  committedBatches : List Nat
  totalInserted : Nat
deriving DecidableEq

/-- The batch loop of `InitializeData`: submit each batch in order via the
bulk-copy path (`insert`), accumulate accepted row counts, and on the first
failing batch return immediately with that batch's index and the storage
error, without submitting any later batch. -/
def runBatches (insert : Nat → Except String Nat) :
    List Nat → LoadState → LoadState × Option (Nat × String)
  | [], st => (st, none)
  | b :: rest, st =>
    let st' : LoadState := { st with attempted := st.attempted ++ [b] }
    match insert b with
    | Except.error e => (st', some (b, e))
    | Except.ok rows =>
      runBatches insert rest
        { st' with committedBatches := st'.committedBatches ++ [b],
                   totalInserted := st'.totalInserted + rows }

/-- The whole bulk load of `InitializeData` over `totalBatches recordCount`
batches, starting from a fresh state. -/
def initializeData (recordCount : Nat) (insert : Nat → Except String Nat) :
    LoadState × Option (Nat × String) :=
  runBatches insert (List.range (totalBatches recordCount)) (LoadState.mk [] [] 0)

theorem runBatches_ok_prefix (insert : Nat → Except String Nat) (rows : Nat → Nat)
    (l1 : List Nat) (hok : ∀ b ∈ l1, insert b = Except.ok (rows b)) :
    ∀ (l2 : List Nat) (st : LoadState),
      runBatches insert (l1 ++ l2) st =
        runBatches insert l2
          (LoadState.mk (st.attempted ++ l1) (st.committedBatches ++ l1)
            (st.totalInserted + (l1.map rows).sum)) := by
  induction l1 with
  | nil =>
    intro l2 st
    simp
  | cons b rest ih =>
    intro l2 st
    have hb : insert b = Except.ok (rows b) := hok b (List.mem_cons_self _ _)
    have hrest : ∀ x ∈ rest, insert x = Except.ok (rows x) :=
      fun x hx => hok x (List.mem_cons_of_mem _ hx)
    have hstep : runBatches insert ((b :: rest) ++ l2) st =
        runBatches insert (rest ++ l2)
          (LoadState.mk (st.attempted ++ [b]) (st.committedBatches ++ [b])
            (st.totalInserted + rows b)) := by
      show runBatches insert (b :: (rest ++ l2)) st = _
      simp only [runBatches, hb]
    rw [hstep, ih hrest]
    have hA : (st.attempted ++ [b]) ++ rest = st.attempted ++ (b :: rest) := by simp
    have hC : (st.committedBatches ++ [b]) ++ rest = st.committedBatches ++ (b :: rest) := by
      simp
    have hS : st.totalInserted + rows b + (List.map rows rest).sum
        = st.totalInserted + (List.map rows (b :: rest)).sum := by
      simp [Nat.add_assoc]
    rw [show LoadState.mk ((st.attempted ++ [b]) ++ rest) ((st.committedBatches ++ [b]) ++ rest)
          (st.totalInserted + rows b + (List.map rows rest).sum)
        = LoadState.mk (st.attempted ++ (b :: rest)) (st.committedBatches ++ (b :: rest))
          (st.totalInserted + (List.map rows (b :: rest)).sum) from by rw [hA, hC, hS]]

/-- C7: if every batch before `k` is accepted by storage and batch `k` fails,
the loader submits exactly batches `0..k` (no later batch), reports the
failing batch index `k` together with the storage error, and the batches
committed before the failure remain committed with their accepted row
counts summed (no global rollback). -/
theorem initializeData_abort_on_failure (n : Nat) (insert : Nat → Except String Nat)
    (rows : Nat → Nat) (k : Nat) (e : String)
    (hk : k < totalBatches n)
    (hok : ∀ j, j < k → insert j = Except.ok (rows j))
    (herr : insert k = Except.error e) :
    initializeData n insert =
      (LoadState.mk (List.range (k + 1)) (List.range k) (((List.range k).map rows).sum),
       some (k, e)) := by
  unfold initializeData
  obtain ⟨m, hm⟩ : ∃ m, totalBatches n = k + (m + 1) := ⟨totalBatches n - k - 1, by omega⟩
  have hsplit : List.range (totalBatches n)
      = List.range k ++ (k :: ((List.range m).map (fun i => k + (i + 1)))) := by
    rw [hm, List.range_add, List.range_succ_eq_map]
    simp [Function.comp]
  have hok' : ∀ b ∈ List.range k, insert b = Except.ok (rows b) :=
    fun b hb => hok b (List.mem_range.mp hb)
  rw [hsplit, runBatches_ok_prefix insert rows (List.range k) hok']
  simp only [runBatches, herr]
  simp [List.range_succ]

/-- Witness for C7: a 2500-record load whose second batch fails. -/
theorem initializeData_abort_on_failure_witness :
    (1 < totalBatches 2500) ∧
    initializeData 2500
        (fun b => if b = 1 then Except.error ("disk full") else Except.ok 1000) =
      (LoadState.mk (List.range 2) (List.range 1) (((List.range 1).map (fun _ => 1000)).sum),
       some (1, "disk full")) :=
  ⟨by decide, initializeData_abort_on_failure 2500
    (fun b => if b = 1 then Except.error ("disk full") else Except.ok 1000)
    (fun _ => 1000) 1 ("disk full") (by decide)
    (fun j hj => by
      have hj0 : j = 0 := by omega
      subst hj0
      rfl)
    (by rfl)⟩

/-- ASCII lower-casing of one character, modelling the effect of
`strings.ToLower` / `ILIKE` case folding on the characters relevant here. -/
def lowerChar (c : Char) : Char :=
  if 'A' ≤ c ∧ c ≤ 'Z' then Char.ofNat (c.toNat + 32) else c

def lowerChars (l : List Char) : List Char := l.map lowerChar

def isHexDigit (c : Char) : Bool :=
  ('0' ≤ c && c ≤ '9') || ('a' ≤ c && c ≤ 'f') || ('A' ≤ c && c ≤ 'F')

/-- Embedding of `uuid.Parse` restricted to the canonical
8-4-4-4-12 hyphenated format: returns the lower-cased canonical form on
success and `none` on any string that is not a valid identifier. -/
def parseUUID (s : String) : Option String :=
  let cs := s.data
  if cs.length = 36 ∧ (cs.enum.all fun p =>
      if p.1 = 8 ∨ p.1 = 13 ∨ p.1 = 18 ∨ p.1 = 23 then p.2 = '-' else isHexDigit p.2) then
    some (String.mk (lowerChars cs))
  else none

/-- Split a character list at a separator, keeping empty groups
(`strings.Split` semantics). -/
def splitOnChar (sep : Char) : List Char → List (List Char)
  | [] => [[]]
  | c :: rest =>
    match splitOnChar sep rest with
    | [] => [[c]]
    | g :: gs => if c = sep then [] :: g :: gs else (c :: g) :: gs

/-- Numeric value of an all-digit character list; `none` when any character
is not a decimal digit or the list is empty. -/
def digitsVal : List Char → Option Nat
  | [] => none
  | l => l.foldl (fun acc c =>
      match acc with
      | none => none
      | some n => if '0' ≤ c ∧ c ≤ '9' then some (n * 10 + (c.toNat - 48)) else none)
      (some 0)

def isLeapYear (y : Nat) : Bool := (y % 4 == 0 && y % 100 != 0) || y % 400 == 0

def daysInYear (y : Nat) : Nat := if isLeapYear y then 366 else 365

def daysInMonth (y m : Nat) : Nat :=
  if m = 2 then (if isLeapYear y then 29 else 28)
  else if m = 4 ∨ m = 6 ∨ m = 9 ∨ m = 11 then 30
  else 31

/-- Days from 1970-01-01 to the given civil date (valid for years ≥ 1970). -/
def daysSinceEpoch (y m d : Nat) : Nat :=
  ((List.range (y - 1970)).map (fun i => daysInYear (1970 + i))).sum
    + ((List.range (m - 1)).map (fun i => daysInMonth y (i + 1))).sum
    + (d - 1)

/-- Embedding of `time.Parse("2006-01-02", s)` (restricted to years ≥ 1970):
the Unix timestamp of midnight UTC of the parsed calendar date, or `none`
when the string is not a valid `YYYY-MM-DD` date. -/
def parseDate (s : String) : Option Int :=
  match splitOnChar '-' s.data with
  | [y, m, d] =>
    if y.length = 4 ∧ m.length = 2 ∧ d.length = 2 then
      match digitsVal y, digitsVal m, digitsVal d with
      | some yv, some mv, some dv =>
        if 1970 ≤ yv ∧ 1 ≤ mv ∧ mv ≤ 12 ∧ 1 ≤ dv ∧ dv ≤ daysInMonth yv mv then
          some (Int.ofNat (daysSinceEpoch yv mv dv * 86400))
        else none
      | _, _, _ => none
    else none
  | _ => none

/-- A stored row of the `logs` table. `content` is the raw JSONB payload as
text; `createdAt` is the event timestamp in Unix seconds. -/
structure LogRow where
  id : String
  userId : String
  domain : String
  action : String
  content : String
  createdAt : Int
deriving DecidableEq

/-- The nullable parameter set shared by the sqlc filter queries
(`sqlc.narg` values): an absent value imposes no constraint. -/
structure FilterParams where
  userID : Option String
  domain : Option String
  createdAtFrom : Option Int
  createdAtTo : Option Int
deriving DecidableEq

/-- The shared WHERE conjuncts of `ListLogsWithFilters`/`CountLogsWithFilters`
and their partial-search counterparts: equality on `user_id` and `domain`,
inclusive `created_at` lower and upper bounds. -/
def baseMatch (p : FilterParams) (r : LogRow) : Bool :=
  (match p.userID with
   | none => true
   | some u => r.userId == u) &&
  (match p.domain with
   | none => true
   | some d => r.domain == d) &&
  (match p.createdAtFrom with
   | none => true
   | some t => decide (t ≤ r.createdAt)) &&
  (match p.createdAtTo with
   | none => true
   | some t => decide (r.createdAt ≤ t))

/-- Full WHERE clause of the full-text queries; `fts content term` models
`to_tsvector('english', content::text) @@ plainto_tsquery('english', term)`,
which is evaluated by PostgreSQL and therefore supplied as a parameter. -/
def ftsWhere (fts : String → String → Bool) (p : FilterParams)
    (contentSearch : Option String) (r : LogRow) : Bool :=
  baseMatch p r &&
  (match contentSearch with
   | none => true
   | some t => fts r.content t)

/-- `content::text ILIKE '%' || term || '%'`: case-insensitive substring
match of the term against the serialized content (LIKE wildcards inside the
term are not modelled). -/
def ilikeMatch (content term : String) : Bool :=
  decide ((lowerChars term.data) <:+: (lowerChars content.data))

/-- Full WHERE clause of `SearchLogsPartial`/`CountLogsPartial`. -/
def partialWhere (p : FilterParams) (term : String) (r : LogRow) : Bool :=
  baseMatch p r && ilikeMatch r.content term

/-- `ORDER BY created_at DESC` comparison. -/
def createdDesc (a b : LogRow) : Bool := decide (b.createdAt ≤ a.createdAt)

/-- `ListLogsWithFilters`: filter, sort by `created_at DESC`, then
`LIMIT limit OFFSET offset`. -/
def listLogsWithFilters (fts : String → String → Bool) (p : FilterParams)
    (contentSearch : Option String) (limit offset : Nat) (db : List LogRow) : List LogRow :=
  (((db.filter (ftsWhere fts p contentSearch)).mergeSort createdDesc).drop offset).take limit

/-- `CountLogsWithFilters`. -/
def countLogsWithFilters (fts : String → String → Bool) (p : FilterParams)
    (contentSearch : Option String) (db : List LogRow) : Nat :=
  (db.filter (ftsWhere fts p contentSearch)).length

/-- `SearchLogsPartial`. -/
def searchLogsPartialQuery (p : FilterParams) (term : String) (limit offset : Nat)
    (db : List LogRow) : List LogRow :=
  (((db.filter (partialWhere p term)).mergeSort createdDesc).drop offset).take limit

/-- `CountLogsPartial`. -/
def countLogsPartial (p : FilterParams) (term : String) (db : List LogRow) : Nat :=
  (db.filter (partialWhere p term)).length

/-- The bound query parameters of `models.LogFilter` (all filter fields are
optional strings; `page` and `limit` have defaults 1 and 50). -/
structure LogFilter where
  userId : Option String
  domain : Option String
  createdAt : Option String
  createdAtTo : Option String
  contentLike : Option String
  searchTerm : Option String
  page : Nat
  limit : Nat

/-- Parameter building shared by `GetLogs` and `SearchLogsPartial`: empty or
unparsable `user_id` and date strings leave the corresponding parameter
unset; a parsed `created_at_to` date is moved to the end of its day
(`t.Add(24*time.Hour - time.Second)`). -/
def buildParams (f : LogFilter) : FilterParams :=
  { userID := match f.userId with
      | none => none
      | some s => if s = "" then none else parseUUID s,
    domain := match f.domain with
      | none => none
      | some s => if s = "" then none else some s,
    createdAtFrom := match f.createdAt with
      | none => none
      | some s => if s = "" then none else parseDate s,
    createdAtTo := match f.createdAtTo with
      | none => none
      | some s => if s = "" then none else (parseDate s).map (fun t => t + (86400 - 1)) }

/-- The `content_like` full-text term of `GetLogs`. -/
def contentSearchOf (f : LogFilter) : Option String :=
  match f.contentLike with
  | none => none
  | some s => if s = "" then none else some s

/-- One record of a response page: the row with its content deserialized
back into a structured document; unparsable content degrades to a document
holding the raw payload under the single key `raw`. -/
structure LogEntry where
  id : String
  userId : String
  domain : String
  action : String
  content : Content
  createdAt : Int

/-- Row-to-entry conversion of the response loops of `GetLogs` and
`SearchLogsPartial`; `ju` models `json.Unmarshal` on the stored payload. -/
def entryOf (ju : String → Option Content) (r : LogRow) : LogEntry :=
  { id := r.id, userId := r.userId, domain := r.domain, action := r.action,
    content := match ju r.content with
      | some c => c
      | none => [("raw", JValue.str r.content)],
    createdAt := r.createdAt }

/-- The JSON body returned by the list/search endpoints. -/
structure PageResponse where
  data : List LogEntry
  total : Nat
  page : Nat
  limit : Nat
  totalPages : Nat

/-- Embedding of the `GetLogs` handler: count and fetch with the same
filter, `offset = (page-1)*limit`, `totalPages = (total+limit-1)/limit`. -/
def getLogs (fts : String → String → Bool) (ju : String → Option Content)
    (db : List LogRow) (f : LogFilter) : Except String PageResponse :=
  let p := buildParams f
  let cs := contentSearchOf f
  let total := countLogsWithFilters fts p cs db
  let rows := listLogsWithFilters fts p cs f.limit ((f.page - 1) * f.limit) db
  Except.ok
    { data := rows.map (entryOf ju), total := total, page := f.page, limit := f.limit,
      totalPages := (total + f.limit - 1) / f.limit }

/-- Embedding of the `SearchLogsPartial` handler: a missing or empty
`search_term` is rejected as a client error before any storage access;
otherwise count and fetch with the same filter and pagination rules. -/
def searchLogsPartial (ju : String → Option Content) (db : List LogRow)
    (f : LogFilter) : Except String PageResponse :=
  match f.searchTerm with
  | none => Except.error ("search_term is required")
  | some t =>
    if t = "" then Except.error ("search_term is required")
    else
      let p := buildParams f
      let total := countLogsPartial p t db
      let rows := searchLogsPartialQuery p t f.limit ((f.page - 1) * f.limit) db
      Except.ok
        { data := rows.map (entryOf ju), total := total, page := f.page, limit := f.limit,
          totalPages := (total + f.limit - 1) / f.limit }

/-- C4: a `created_at_to` calendar date is normalized to the end of that day
(23:59:59, i.e. midnight plus 86399 seconds) and compared inclusively:
with `createdAtTo = "2024-06-15"`, a record at 2024-06-15T23:59:59 matches
and a record at 2024-06-16T00:00:00 does not. -/
theorem created_at_upper_bound_end_of_day (f : LogFilter) (s : String) (t : Int)
    (hs : parseDate s = some t) :
    (buildParams { f with createdAtTo := some s }).createdAtTo = some (t + (86400 - 1))
    ∧ (∀ r : LogRow,
        baseMatch (FilterParams.mk none none none (some (t + (86400 - 1)))) r
          = decide (r.createdAt ≤ t + (86400 - 1)))
    ∧ parseDate ("2024-06-15") = some (Int.ofNat (daysSinceEpoch 2024 6 15 * 86400))
    ∧ baseMatch (buildParams (LogFilter.mk none none none (some ("2024-06-15")) none none 1 50))
        (LogRow.mk ("id1") ("u") ("d") ("a") ("c")
          (Int.ofNat (daysSinceEpoch 2024 6 15 * 86400 + 86399))) = true
    ∧ baseMatch (buildParams (LogFilter.mk none none none (some ("2024-06-15")) none none 1 50))
        (LogRow.mk ("id2") ("u") ("d") ("a") ("c")
          (Int.ofNat (daysSinceEpoch 2024 6 16 * 86400))) = false := by
  have hne : s ≠ "" := by
    intro hcon
    rw [hcon] at hs
    exact Option.noConfusion ((rfl : parseDate ("") = none) ▸ hs)
  refine ⟨?_, ?_, ?_, ?_, ?_⟩
  · simp only [buildParams, hne, if_neg, hs, Option.map_some']
    simp [hne]
  · intro r
    simp [baseMatch]
  · decide
  · decide
  · decide

/-- Witness for C4 at `s = "2024-06-15"`. -/
theorem created_at_upper_bound_end_of_day_witness :
    parseDate ("2024-06-15") = some (Int.ofNat (daysSinceEpoch 2024 6 15 * 86400)) ∧
    (buildParams { LogFilter.mk none none none none none none 1 50 with
        createdAtTo := some ("2024-06-15") }).createdAtTo
      = some (Int.ofNat (daysSinceEpoch 2024 6 15 * 86400) + (86400 - 1)) :=
  ⟨by decide,
   (created_at_upper_bound_end_of_day (LogFilter.mk none none none none none none 1 50)
     ("2024-06-15") (Int.ofNat (daysSinceEpoch 2024 6 15 * 86400)) (by decide)).1⟩

/-- C5: a `user_id` filter value that is not a valid identifier is silently
ignored by both the list and the partial-search handlers: the result is the
same as with no `user_id` filter (the other filters still apply), and the
request is not rejected as a client error. -/
theorem invalid_userid_filter_ignored (fts : String → String → Bool)
    (ju : String → Option Content) (db : List LogRow) (f : LogFilter) (s : String)
    (hs : parseUUID s = none) :
    getLogs fts ju db { f with userId := some s } = getLogs fts ju db { f with userId := none }
    ∧ searchLogsPartial ju db { f with userId := some s }
        = searchLogsPartial ju db { f with userId := none }
    ∧ (∃ resp, getLogs fts ju db { f with userId := some s } = Except.ok resp)
    ∧ (∀ t, f.searchTerm = some t → t ≠ "" →
        ∃ resp, searchLogsPartial ju db { f with userId := some s } = Except.ok resp) := by
  have hbp : buildParams { f with userId := some s } = buildParams { f with userId := none } := by
    unfold buildParams
    by_cases hse : s = ""
    · simp [hse]
    · simp [hse, hs]
  refine ⟨?_, ?_, ?_, ?_⟩
  · simp only [getLogs, hbp, contentSearchOf]
  · simp only [searchLogsPartial, hbp]
  · exact ⟨_, rfl⟩
  · intro t ht hne
    refine ⟨PageResponse.mk
      ((searchLogsPartialQuery (buildParams { f with userId := some s }) t f.limit
        ((f.page - 1) * f.limit) db).map (entryOf ju))
      (countLogsPartial (buildParams { f with userId := some s }) t db)
      f.page f.limit
      ((countLogsPartial (buildParams { f with userId := some s }) t db + f.limit - 1)
        / f.limit), ?_⟩
    unfold searchLogsPartial
    have hterm : ({ f with userId := some s } : LogFilter).searchTerm = some t := ht
    rw [hterm]
    dsimp only
    rw [if_neg hne]

/-- Witness for C5 at the invalid identifier string `not-a-uuid`. -/
theorem invalid_userid_filter_ignored_witness :
    parseUUID ("not-a-uuid") = none ∧
    getLogs (fun _ _ => false) (fun _ => none) []
        { LogFilter.mk none none none none none (some ("log")) 1 50 with
          userId := some ("not-a-uuid") }
      = getLogs (fun _ _ => false) (fun _ => none) []
        { LogFilter.mk none none none none none (some ("log")) 1 50 with userId := none } :=
  ⟨by decide,
   (invalid_userid_filter_ignored (fun _ _ => false) (fun _ => none) []
     (LogFilter.mk none none none none none (some ("log")) 1 50) ("not-a-uuid")
     (by decide)).1⟩

/-- C6: a record whose stored content does not deserialize is returned as a
document holding only the raw payload under the single key `raw`, and the
page as a whole still succeeds, every returned entry being the
deserialize-with-fallback image of a fetched row. -/
theorem unparsable_content_fallback (fts : String → String → Bool)
    (ju : String → Option Content) (db : List LogRow) (f : LogFilter) (r : LogRow)
    (hr : ju r.content = none) :
    (entryOf ju r).content = [("raw", JValue.str r.content)]
    ∧ (∃ resp, getLogs fts ju db f = Except.ok resp ∧
        resp.data = (listLogsWithFilters fts (buildParams f) (contentSearchOf f) f.limit
          ((f.page - 1) * f.limit) db).map (entryOf ju))
    ∧ (∀ t, f.searchTerm = some t → t ≠ "" →
        ∃ resp, searchLogsPartial ju db f = Except.ok resp ∧
          resp.data = (searchLogsPartialQuery (buildParams f) t f.limit
            ((f.page - 1) * f.limit) db).map (entryOf ju)) := by
  refine ⟨?_, ?_, ?_⟩
  · simp [entryOf, hr]
  · exact ⟨_, rfl, rfl⟩
  · intro t ht hne
    refine ⟨PageResponse.mk
      ((searchLogsPartialQuery (buildParams f) t f.limit
        ((f.page - 1) * f.limit) db).map (entryOf ju))
      (countLogsPartial (buildParams f) t db) f.page f.limit
      ((countLogsPartial (buildParams f) t db + f.limit - 1) / f.limit), ?_, rfl⟩
    unfold searchLogsPartial
    rw [ht]
    dsimp only
    rw [if_neg hne]

/-- Witness for C6: a one-row database whose payload never parses. -/
theorem unparsable_content_fallback_witness :
    ((fun _ => (none : Option Content)) ("oops") = none) ∧
    (entryOf (fun _ => none) (LogRow.mk ("i") ("u") ("d") ("a") ("oops") 0)).content
      = [("raw", JValue.str ("oops"))] :=
  ⟨rfl,
   (unparsable_content_fallback (fun _ _ => true) (fun _ => none)
     [LogRow.mk ("i") ("u") ("d") ("a") ("oops") 0]
     (LogFilter.mk none none none none none none 1 50)
     (LogRow.mk ("i") ("u") ("d") ("a") ("oops") 0) rfl).1⟩

/-- The full matching result set of a filtered list query in descending
creation-time order: the unpaginated `ORDER BY created_at DESC` result. -/
def filteredSorted (fts : String → String → Bool) (p : FilterParams)
    (contentSearch : Option String) (db : List LogRow) : List LogRow :=
  (db.filter (ftsWhere fts p contentSearch)).mergeSort createdDesc

theorem flatten_chunks {α : Type} (m : Nat) (_hm : 1 ≤ m) :
    ∀ (k : Nat) (l : List α), l.length ≤ k * m →
      ((List.range k).map (fun i => (l.drop (i * m)).take m)).flatten = l := by
  intro k
  induction k with
  | zero =>
    intro l h
    cases l with
    | nil => rfl
    | cons a t => simp at h
  | succ k ih =>
    intro l h
    rw [List.range_succ_eq_map, List.map_cons, List.map_map, List.flatten_cons]
    have h0 : (l.drop (0 * m)).take m = l.take m := by simp
    have hshift : ((List.range k).map ((fun i => (l.drop (i * m)).take m) ∘ Nat.succ))
        = (List.range k).map (fun i => ((l.drop m).drop (i * m)).take m) := by
      apply List.map_congr_left
      intro i _
      simp only [Function.comp]
      have hd : l.drop (Nat.succ i * m) = (l.drop m).drop (i * m) := by
        rw [List.drop_drop]
        congr 1
        simp [Nat.succ_mul]
        omega
      rw [hd]
    rw [h0, hshift, ih (l.drop m) ?hlen]
    · exact List.take_append_drop m l
    case hlen =>
      rw [List.length_drop]
      have hsm : (k + 1) * m = k * m + m := by ring
      rw [hsm] at h
      omega

theorem le_ceil_mul (n m : Nat) (hm : 1 ≤ m) : n ≤ ((n + m - 1) / m) * m := by
  have h1 := Nat.div_add_mod (n + m - 1) m
  have h2 : (n + m - 1) % m < m := Nat.mod_lt _ (by omega)
  rw [Nat.mul_comm]
  omega

theorem createdDesc_trans :
    ∀ (a b c : LogRow), createdDesc a b → createdDesc b c → createdDesc a c := by
  intro a b c hab hbc
  simp only [createdDesc, decide_eq_true_eq] at *
  omega

theorem createdDesc_total : ∀ (a b : LogRow), createdDesc a b || createdDesc b a := by
  intro a b
  simp only [createdDesc]
  by_cases h : b.createdAt ≤ a.createdAt
  · simp [h]
  · have h' : a.createdAt ≤ b.createdAt := by omega
    simp [h']

/-- C3: the list endpoint computes `offset = (page-1)*limit`, returns at most
`limit` rows, reports `totalPages` as the ceiling of `total/limit`
(`total ≤ totalPages*limit`, zero iff no matches, and one fewer page would
not fit the matches), and concatenating pages `1..totalPages` yields exactly
the matching records with no duplicates and no omissions, in descending
creation-time order. -/
theorem getLogs_pagination (fts : String → String → Bool) (ju : String → Option Content)
    (db : List LogRow) (f : LogFilter) (hl : 1 ≤ f.limit) :
    (∀ q : Nat, getLogs fts ju db { f with page := q }
        = Except.ok (PageResponse.mk
            ((listLogsWithFilters fts (buildParams f) (contentSearchOf f) f.limit
               ((q - 1) * f.limit) db).map (entryOf ju))
            (countLogsWithFilters fts (buildParams f) (contentSearchOf f) db)
            q f.limit
            ((countLogsWithFilters fts (buildParams f) (contentSearchOf f) db + f.limit - 1)
              / f.limit)))
    ∧ (∀ q : Nat, (listLogsWithFilters fts (buildParams f) (contentSearchOf f) f.limit
          ((q - 1) * f.limit) db).length ≤ f.limit)
    ∧ (countLogsWithFilters fts (buildParams f) (contentSearchOf f) db
          ≤ ((countLogsWithFilters fts (buildParams f) (contentSearchOf f) db + f.limit - 1)
              / f.limit) * f.limit
        ∧ (countLogsWithFilters fts (buildParams f) (contentSearchOf f) db = 0 →
            (countLogsWithFilters fts (buildParams f) (contentSearchOf f) db + f.limit - 1)
              / f.limit = 0)
        ∧ (1 ≤ countLogsWithFilters fts (buildParams f) (contentSearchOf f) db →
            ((countLogsWithFilters fts (buildParams f) (contentSearchOf f) db + f.limit - 1)
              / f.limit - 1) * f.limit
              < countLogsWithFilters fts (buildParams f) (contentSearchOf f) db))
    ∧ ((List.range ((countLogsWithFilters fts (buildParams f) (contentSearchOf f) db
            + f.limit - 1) / f.limit)).map
          (fun i => listLogsWithFilters fts (buildParams f) (contentSearchOf f) f.limit
            (i * f.limit) db)).flatten
        = filteredSorted fts (buildParams f) (contentSearchOf f) db
    ∧ (filteredSorted fts (buildParams f) (contentSearchOf f) db).Perm
        (db.filter (ftsWhere fts (buildParams f) (contentSearchOf f)))
    ∧ (filteredSorted fts (buildParams f) (contentSearchOf f) db).Pairwise
        (fun a b => b.createdAt ≤ a.createdAt) := by
  have hT : (filteredSorted fts (buildParams f) (contentSearchOf f) db).length
      = countLogsWithFilters fts (buildParams f) (contentSearchOf f) db := by
    unfold filteredSorted countLogsWithFilters
    rw [List.length_mergeSort]
  refine ⟨?_, ?_, ⟨?_, ?_, ?_⟩, ?_, ?_, ?_⟩
  · intro q
    rfl
  · intro q
    unfold listLogsWithFilters
    rw [List.length_take]
    exact Nat.min_le_left _ _
  · exact le_ceil_mul _ _ hl
  · intro h0
    rw [h0]
    exact Nat.div_eq_of_lt (by omega)
  · intro hT1
    have he : countLogsWithFilters fts (buildParams f) (contentSearchOf f) db + f.limit - 1
        = (countLogsWithFilters fts (buildParams f) (contentSearchOf f) db - 1) + f.limit := by
      omega
    rw [he, Nat.add_div_right _ (by omega)]
    have hds := Nat.div_mul_le_self
      (countLogsWithFilters fts (buildParams f) (contentSearchOf f) db - 1) f.limit
    simp only [Nat.add_sub_cancel]
    omega
  · have hfun : (fun i => listLogsWithFilters fts (buildParams f) (contentSearchOf f) f.limit
        (i * f.limit) db)
        = (fun i => ((filteredSorted fts (buildParams f) (contentSearchOf f) db).drop
            (i * f.limit)).take f.limit) := rfl
    rw [hfun]
    apply flatten_chunks f.limit hl
    rw [hT]
    exact le_ceil_mul _ _ hl
  · exact List.mergeSort_perm _ _
  · exact (List.sorted_mergeSort createdDesc_trans createdDesc_total _).imp
      (fun hab => by simpa [createdDesc] using hab)

/-- Witness for C3: a two-row database, limit 1; the concatenated pages
recover the whole descending-sorted match list. -/
theorem getLogs_pagination_witness :
    (1 ≤ (LogFilter.mk none none none none none none 1 1).limit) ∧
    (filteredSorted (fun _ _ => true) (buildParams (LogFilter.mk none none none none none none 1 1))
        (contentSearchOf (LogFilter.mk none none none none none none 1 1))
        [LogRow.mk ("a") ("u") ("d") ("x") ("c1") 5, LogRow.mk ("b") ("u") ("d") ("y") ("c2") 9]).Perm
      ([LogRow.mk ("a") ("u") ("d") ("x") ("c1") 5,
        LogRow.mk ("b") ("u") ("d") ("y") ("c2") 9].filter
        (ftsWhere (fun _ _ => true) (buildParams (LogFilter.mk none none none none none none 1 1))
          (contentSearchOf (LogFilter.mk none none none none none none 1 1)))) :=
  ⟨by decide,
   (getLogs_pagination (fun _ _ => true) (fun _ => none)
     [LogRow.mk ("a") ("u") ("d") ("x") ("c1") 5, LogRow.mk ("b") ("u") ("d") ("y") ("c2") 9]
     (LogFilter.mk none none none none none none 1 1) (by decide)).2.2.2.2.1⟩

/-- A value handed to `Content.Scan` by the SQL driver: raw bytes, a string,
or a value of any other type (the `default` case of the type switch). -/
inductive ScanValue where
  | bytes (s : String)
  | strv (s : String)
  | otherv

/-- Embedding of `Content.Scan`: a NULL driver value yields the empty
mapping, bytes and strings are JSON-decoded (`ju` models `json.Unmarshal`),
and any other driver type also yields the empty mapping. -/
def contentScan (ju : String → Option Content) : Option ScanValue → Except String Content
  | none => Except.ok []
  | some (ScanValue.bytes s) =>
    match ju s with
    | some c => Except.ok c
    | none => Except.error ("unmarshal error")
  | some (ScanValue.strv s) =>
    match ju s with
    | some c => Except.ok c
    | none => Except.error ("unmarshal error")
  | some ScanValue.otherv => Except.ok []

/-- C9: reading a record whose stored content is absent (SQL NULL) yields
the empty mapping, never a nil document, and a driver value of an unexpected
type likewise degrades to the empty mapping rather than failing. -/
theorem contentScan_null_is_empty (ju : String → Option Content) :
    contentScan ju none = Except.ok ([] : Content)
    ∧ contentScan ju (some ScanValue.otherv) = Except.ok ([] : Content) :=
  ⟨rfl, rfl⟩

/-- The punctuation cutset of `strings.Trim(w, ".,!?-()[]{}\"")`. -/
def cutsetChars : List Char :=
  ['.', ',', '!', '?', '-', '(', ')', '[', ']', '\x7b', '\x7d', '\"']

/-- Strip leading and trailing cutset characters (`strings.Trim`). -/
def trimCutset (l : List Char) : List Char :=
  ((l.dropWhile (fun c => cutsetChars.contains c)).reverse.dropWhile
    (fun c => cutsetChars.contains c)).reverse

/-- Split a character list at separator positions, keeping empty groups. -/
def splitWhen (p : Char → Bool) : List Char → List (List Char)
  | [] => [[]]
  | c :: rest =>
    match splitWhen p rest with
    | [] => [[c]]
    | g :: gs => if p c then [] :: g :: gs else (c :: g) :: gs

/-- `strings.Fields`: the maximal whitespace-free substrings. -/
def goFields (s : String) : List (List Char) :=
  (splitWhen Char.isWhitespace s.data).filter (fun g => !g.isEmpty)

/-- Byte length of a character list (Go's `len` on the UTF-8 string). -/
def utf8Len (l : List Char) : Nat := l.foldl (fun n c => n + c.utf8Size) 0

/-- One string value's contribution to the word counts of `discoverTerms`:
split into fields, trim the cutset, lower-case, and keep only words longer
than 3 bytes. -/
def tokenizeGo (s : String) : List String :=
  ((goFields s).map (fun w => (trimCutset w).map lowerChar)).filterMap
    (fun w => if 3 < utf8Len w then some (String.mk w) else none)

/-- The tokens contributed by one content document: only top-level values
that are strings are scanned (`for _, v := range content` with a
`v.(string)` type assertion). -/
def tokensOfContent (c : Content) : List String :=
  c.flatMap (fun kv =>
    match kv.2 with
    | JValue.str s => tokenizeGo s
    | _ => [])

/-- All tokens of the sampled records; records whose content does not
deserialize are skipped. -/
def tokensOfLogs (ju : String → Option Content) (logs : List LogRow) : List String :=
  logs.flatMap (fun l =>
    match ju l.content with
    | none => []
    | some c => tokensOfContent c)

/-- The `wordCounts` frequency table over the distinct tokens. -/
def freqTable (toks : List String) : List (String × Nat) :=
  toks.dedup.map (fun w => (w, toks.count w))

/-- The frequency table sorted by descending count (`sort.Slice` with
`Value >`). -/
def sortedFreqs (toks : List String) : List (String × Nat) :=
  (freqTable toks).mergeSort (fun a b => decide (b.2 ≤ a.2))

/-- Rare-term selection: start from the last (least frequent) entry and,
scanning from the end, take the first entry whose count lies in `[1, 5)`. -/
def rareOf (sorted : List (String × Nat)) : String :=
  match sorted.reverse.find? (fun p => decide (1 ≤ p.2) && decide (p.2 < 5)) with
  | some p => p.1
  | none => (sorted.reverse.headD (("login"), 0)).1

/-- Embedding of `discoverTerms`: tokenize the sampled records' top-level
string values, and pick the most frequent token as common and the rare
selection as rare, falling back to the fixed defaults when no tokens were
found. -/
def discoverTerms (ju : String → Option Content) (logs : List LogRow) : String × String :=
  let toks := tokensOfLogs ju logs
  if toks.isEmpty then (("login"), ("error"))
  else (((sortedFreqs toks).headD (("login"), 0)).1, rareOf (sortedFreqs toks))

theorem countDesc_trans : ∀ (a b c : String × Nat),
    decide (b.2 ≤ a.2) → decide (c.2 ≤ b.2) → decide (c.2 ≤ a.2) := by
  intro a b c hab hbc
  simp only [decide_eq_true_eq] at *
  omega

theorem countDesc_total : ∀ (a b : String × Nat),
    decide (b.2 ≤ a.2) || decide (a.2 ≤ b.2) := by
  intro a b
  by_cases h : b.2 ≤ a.2
  · simp [h]
  · have h' : a.2 ≤ b.2 := by omega
    simp [h']

theorem sortedFreqs_facts (toks : List String) (hne : toks ≠ []) :
    sortedFreqs toks ≠ []
    ∧ (∀ x ∈ sortedFreqs toks, x.2 = toks.count x.1 ∧ x.1 ∈ toks)
    ∧ (∀ t ∈ toks, (t, toks.count t) ∈ sortedFreqs toks)
    ∧ (sortedFreqs toks).Pairwise (fun a b => b.2 ≤ a.2) := by
  refine ⟨?_, ?_, ?_, ?_⟩
  · intro hcon
    have h1 : (sortedFreqs toks).length = 0 := by rw [hcon]; rfl
    rw [sortedFreqs, List.length_mergeSort, freqTable, List.length_map] at h1
    have h2 : toks.dedup = [] := List.eq_nil_of_length_eq_zero h1
    exact hne ((List.dedup_eq_nil _).mp h2)
  · intro x hx
    have hx' : x ∈ freqTable toks := List.mem_mergeSort.mp hx
    obtain ⟨w, hw, rfl⟩ := List.mem_map.mp hx'
    exact ⟨rfl, List.mem_dedup.mp hw⟩
  · intro t ht
    exact List.mem_mergeSort.mpr (List.mem_map.mpr ⟨t, List.mem_dedup.mpr ht, rfl⟩)
  · exact (List.sorted_mergeSort countDesc_trans countDesc_total _).imp
      (fun hab => by simpa using hab)

theorem sortedFreqs_max (toks : List String) (hne : toks ≠ []) :
    ((sortedFreqs toks).headD (("login"), 0)).1 ∈ toks
    ∧ ∀ t ∈ toks, toks.count t ≤ toks.count ((sortedFreqs toks).headD (("login"), 0)).1 := by
  obtain ⟨hne', hmem, hmemT, hpw⟩ := sortedFreqs_facts toks hne
  cases hs : sortedFreqs toks with
  | nil => exact absurd hs hne'
  | cons hd tl =>
    rw [hs] at hmem hmemT hpw
    have hhd := hmem hd (List.mem_cons_self _ _)
    have hcount : hd.2 = toks.count hd.1 := hhd.1
    simp only [List.headD_cons]
    refine ⟨hhd.2, ?_⟩
    intro t ht
    have hmemt := hmemT t ht
    rcases List.mem_cons.mp hmemt with heq | htl
    · have : toks.count t = hd.2 := by rw [← heq]
      omega
    · have hle := (List.rel_of_pairwise_cons hpw) htl
      simp only at hle
      have : (t, toks.count t).2 ≤ hd.2 := hle
      simp only at this
      omega

theorem sortedFreqs_rare (toks : List String) (hne : toks ≠ []) :
    rareOf (sortedFreqs toks) ∈ toks
    ∧ ∀ t ∈ toks, toks.count (rareOf (sortedFreqs toks)) ≤ toks.count t := by
  obtain ⟨hne', hmem, hmemT, hpw⟩ := sortedFreqs_facts toks hne
  have hpwrev : (sortedFreqs toks).reverse.Pairwise (fun a b => a.2 ≤ b.2) :=
    List.pairwise_reverse.mpr hpw
  have hnerev : (sortedFreqs toks).reverse ≠ [] := by
    intro hcon
    exact hne' (by simpa using congrArg List.reverse hcon)
  cases hr : (sortedFreqs toks).reverse with
  | nil => exact absurd hr hnerev
  | cons h' t' =>
    rw [hr] at hpwrev
    have hmemh : h' ∈ sortedFreqs toks := by
      rw [← List.mem_reverse, hr]
      exact List.mem_cons_self _ _
    have hh := hmem h' hmemh
    have hposh : 1 ≤ h'.2 := by
      rw [hh.1]
      exact List.count_pos_iff.mpr hh.2
    have hmin : ∀ y ∈ sortedFreqs toks, h'.2 ≤ y.2 := by
      intro y hy
      rw [← List.mem_reverse, hr] at hy
      rcases List.mem_cons.mp hy with heq | htl
      · rw [heq]
      · exact (List.rel_of_pairwise_cons hpwrev) htl
    have hrareEq : rareOf (sortedFreqs toks) = h'.1 := by
      unfold rareOf
      rw [hr]
      by_cases hpred : (decide (1 ≤ h'.2) && decide (h'.2 < 5)) = true
      · have hfind : List.find? (fun p => decide (1 ≤ p.2) && decide (p.2 < 5)) (h' :: t')
            = some h' := List.find?_cons_of_pos _ (by exact hpred)
        rw [hfind]
      · have hfind : List.find? (fun p => decide (1 ≤ p.2) && decide (p.2 < 5)) (h' :: t')
            = List.find? (fun p => decide (1 ≤ p.2) && decide (p.2 < 5)) t' :=
          List.find?_cons_of_neg _ (by exact hpred)
        rw [hfind]
        have hbig : 5 ≤ h'.2 := by
          simp only [Bool.and_eq_true, decide_eq_true_eq] at hpred
          omega
        have hall : ∀ y ∈ t', ¬ ((decide (1 ≤ y.2) && decide (y.2 < 5)) = true) := by
          intro y hy
          have hy' : y ∈ sortedFreqs toks := by
            rw [← List.mem_reverse, hr]
            exact List.mem_cons_of_mem _ hy
          have := hmin y hy'
          simp only [Bool.and_eq_true, decide_eq_true_eq]
          omega
        rw [List.find?_eq_none.mpr hall]
        simp
    rw [hrareEq]
    refine ⟨hh.2, ?_⟩
    intro t ht
    have := hmin (t, toks.count t) (hmemT t ht)
    simp only at this
    rw [← hh.1]
    exact this

/-- C8 (amended): discovery over the TOP-LEVEL string values. When no tokens
are found the fixed defaults are returned; otherwise the common term is a
present token of maximal frequency and the rare term a present token of
minimal frequency (which is also what the `[1,5)` preference loop yields). -/
theorem discoverTerms_amended (ju : String → Option Content) (logs : List LogRow) :
    (tokensOfLogs ju logs = [] → discoverTerms ju logs = (("login"), ("error")))
    ∧ (tokensOfLogs ju logs ≠ [] →
        (discoverTerms ju logs).1 ∈ tokensOfLogs ju logs
        ∧ (∀ t ∈ tokensOfLogs ju logs,
            (tokensOfLogs ju logs).count t
              ≤ (tokensOfLogs ju logs).count (discoverTerms ju logs).1)
        ∧ (discoverTerms ju logs).2 ∈ tokensOfLogs ju logs
        ∧ (∀ t ∈ tokensOfLogs ju logs,
            (tokensOfLogs ju logs).count (discoverTerms ju logs).2
              ≤ (tokensOfLogs ju logs).count t)) := by
  refine ⟨fun h0 => ?_, fun hne => ?_⟩
  · simp [discoverTerms, h0]
  · have hne' : (tokensOfLogs ju logs).isEmpty = false := by
      cases htok : tokensOfLogs ju logs with
      | nil => exact absurd htok hne
      | cons a t => rfl
    have hd : discoverTerms ju logs
        = (((sortedFreqs (tokensOfLogs ju logs)).headD (("login"), 0)).1,
           rareOf (sortedFreqs (tokensOfLogs ju logs))) := by
      simp [discoverTerms, hne']
    rw [hd]
    obtain ⟨hc1, hc2⟩ := sortedFreqs_max (tokensOfLogs ju logs) hne
    obtain ⟨hr1, hr2⟩ := sortedFreqs_rare (tokensOfLogs ju logs) hne
    exact ⟨hc1, hc2, hr1, hr2⟩

/-- Witness for the amended C8 on a one-record sample with two tokens. -/
theorem discoverTerms_amended_witness :
    (tokensOfLogs (fun s => if s = "c" then some [(("m"), JValue.str ("hello hello"))] else none)
      [LogRow.mk ("i") ("u") ("d") ("x") ("c") 0] ≠ []) ∧
    (discoverTerms (fun s => if s = "c" then some [(("m"), JValue.str ("hello hello"))] else none)
        [LogRow.mk ("i") ("u") ("d") ("x") ("c") 0]).1
      ∈ tokensOfLogs (fun s => if s = "c" then some [(("m"), JValue.str ("hello hello"))] else none)
        [LogRow.mk ("i") ("u") ("d") ("x") ("c") 0] :=
  ⟨by decide,
   ((discoverTerms_amended
      (fun s => if s = "c" then some [(("m"), JValue.str ("hello hello"))] else none)
      [LogRow.mk ("i") ("u") ("d") ("x") ("c") 0]).2 (by decide)).1⟩

/-- Follows the spec's words for comparison with the source: the string leaf
values of a content document, i.e. all strings reachable through nested
objects and arrays, as read from the claim's phrase "all string leaf values
of the content documents". -/
def specStringLeaves : JValue → List String
  | JValue.str s => [s]
  | JValue.int _ => []
  | JValue.bool _ => []
  | JValue.obj [] => []
  | JValue.obj ((_, v) :: rest) => specStringLeaves v ++ specStringLeaves (JValue.obj rest)
  | JValue.arr [] => []
  | JValue.arr (v :: rest) => specStringLeaves v ++ specStringLeaves (JValue.arr rest)

/-- Tokens of the sampled records under the claim's reading: tokenize every
string leaf value, not only top-level strings. -/
def specLeafTokens (ju : String → Option Content) (logs : List LogRow) : List String :=
  logs.flatMap (fun l =>
    match ju l.content with
    | none => []
    | some c => c.flatMap (fun kv => (specStringLeaves kv.2).flatMap tokenizeGo))

/-- Counterexample to C8 as stated: a sample whose only tokens sit inside a
nested object. The claim's reading finds tokens (so no fallback should
occur and the common term should be a leaf token), but the code scans only
top-level strings, finds nothing, and returns the fixed defaults, which are
not leaf tokens. -/
theorem discoverTerms_counterexample :
    specLeafTokens
        (fun s => if s = "n" then
          some [(("a"), JValue.obj [(("b"), JValue.str ("wonderful wonderful"))])] else none)
        [LogRow.mk ("i") ("u") ("d") ("x") ("n") 0] ≠ []
    ∧ discoverTerms
        (fun s => if s = "n" then
          some [(("a"), JValue.obj [(("b"), JValue.str ("wonderful wonderful"))])] else none)
        [LogRow.mk ("i") ("u") ("d") ("x") ("n") 0] = (("login"), ("error"))
    ∧ (discoverTerms
        (fun s => if s = "n" then
          some [(("a"), JValue.obj [(("b"), JValue.str ("wonderful wonderful"))])] else none)
        [LogRow.mk ("i") ("u") ("d") ("x") ("n") 0]).1
        ∉ specLeafTokens
        (fun s => if s = "n" then
          some [(("a"), JValue.obj [(("b"), JValue.str ("wonderful wonderful"))])] else none)
        [LogRow.mk ("i") ("u") ("d") ("x") ("n") 0]
    ∧ (discoverTerms
        (fun s => if s = "n" then
          some [(("a"), JValue.obj [(("b"), JValue.str ("wonderful wonderful"))])] else none)
        [LogRow.mk ("i") ("u") ("d") ("x") ("n") 0]).2
        ∉ specLeafTokens
        (fun s => if s = "n" then
          some [(("a"), JValue.obj [(("b"), JValue.str ("wonderful wonderful"))])] else none)
        [LogRow.mk ("i") ("u") ("d") ("x") ("n") 0] := by
  have hleaf : specLeafTokens
      (fun s => if s = "n" then
        some [(("a"), JValue.obj [(("b"), JValue.str ("wonderful wonderful"))])] else none)
      [LogRow.mk ("i") ("u") ("d") ("x") ("n") 0]
      = tokenizeGo ("wonderful wonderful") := by
    simp [specLeafTokens, specStringLeaves]
  have htok : tokenizeGo ("wonderful wonderful") = [("wonderful"), ("wonderful")] := by decide
  rw [hleaf, htok]
  refine ⟨by decide, by decide, by decide, by decide⟩
